import Mathlib

/-!
Verification of the Anima-Desktop input pipeline's `Button` processor
(`src/input/intermediate/button.rs`): a stateful processor turning cursor
press/release events into widget press/release/cancel events while
preserving batch length and order.

Machine integers are modelled as `Int` with explicit wrapping where the
source performs `i32` arithmetic (the subtraction in `Button::inside`);
`u32` identifiers are modelled as `Nat`.
-/

namespace Anima

/-- Mouse button enumeration, after `glium::glutin::MouseButton`:
`Left`, `Right`, `Middle` and numbered other buttons. -/
inductive MouseButton where
  | Left
  | Right
  | Middle
  | Other (code : Nat)
deriving DecidableEq, Repr

/-- Modelled from the spec: the `IntermediateEvent` enum declared outside the
provided sources but fully determined by its uses in `button.rs` — cursor
press/release events carrying `i32` coordinates and a mouse button, and the
widget events `ButtonPressed` / `ButtonReleased` / `ButtonCanceled` carrying a
`u32` id (the spec calls these `WidgetPressed` / `WidgetReleased` /
`WidgetCanceled`). -/
inductive IntermediateEvent where
  | CursorPressed (x y : Int) (button : MouseButton)
  | CursorReleased (x y : Int) (button : MouseButton)
  | ButtonPressed (id : Nat)
  | ButtonReleased (id : Nat)
  | ButtonCanceled (id : Nat)
deriving DecidableEq, Repr

/-- Modelled from the spec: the `InputEvent` union — a raw device event with
a payload not elaborated by this core, or an `IntermediateEvent`. -/
inductive InputEvent where
  | Intermediate (e : IntermediateEvent)
  | Raw (code : Nat)
deriving DecidableEq, Repr

/-- The `Button` struct of `button.rs`: a rectangular widget region with a
`u32` id, `i32` geometry and the private `pressed` capture flag. -/
structure Button where
  id : Nat
  x : Int
  y : Int
  width : Int
  height : Int
  pressed : Bool
deriving DecidableEq, Repr

namespace Button

/-- `Button::new`: pure construction, `pressed` initialised to `false`. -/
def new (id : Nat) (x y width height : Int) : Button :=
  { id := id, x := x, y := y, width := width, height := height,
    pressed := false }

end Button

/-- Two's-complement wrapping of an unbounded integer into the `i32` range
`[-2^31, 2^31 - 1]`, used to model Rust's wrapping `i32` subtraction. -/
def wrap32 (n : Int) : Int := (n + 2 ^ 31) % 2 ^ 32 - 2 ^ 31

/-- `n` lies in the `i32` range. -/
def isI32 (n : Int) : Prop := -2 ^ 31 ≤ n ∧ n ≤ 2 ^ 31 - 1

instance (n : Int) : Decidable (isI32 n) := by
  unfold isI32; infer_instance

namespace Button

/-- `Button::inside`: `dx = x - self.x`, `dy = y - self.y` computed with
wrapping `i32` subtraction, then the inclusive rectangle test
`0 <= dx && dx <= width && 0 <= dy && dy <= height`. -/
def inside (b : Button) (x y : Int) : Bool :=
  let dx := wrap32 (x - b.x)
  let dy := wrap32 (y - b.y)
  decide (0 ≤ dx) && decide (dx ≤ b.width) &&
  decide (0 ≤ dy) && decide (dy ≤ b.height)

end Button

/-- The per-event decision of `Button::process`'s `match`: the transformed
event together with the updated widget. The three guarded arms of the
source `match` are, in order: left press inside the region, left press while
already pressed, left release while pressed; everything else passes
through unchanged. -/
def step (b : Button) (event : InputEvent) : InputEvent × Button :=
  match event with
  | .Intermediate (.CursorPressed x y .Left) =>
    if b.inside x y then
      (.Intermediate (.ButtonPressed b.id), { b with pressed := true })
    else if b.pressed then
      (.Intermediate (.ButtonPressed b.id), b)
    else
      (event, b)
  | .Intermediate (.CursorReleased x y .Left) =>
    if b.pressed then
      (if b.inside x y then
        .Intermediate (.ButtonReleased b.id)
       else
        .Intermediate (.ButtonCanceled b.id),
       { b with pressed := false })
    else
      (event, b)
  | e => (e, b)

/-- `Button::process`: the batch is traversed in order, each event mapped by
`step` with the state update from one event visible to the next (the source's
`filter_map` closure always returns `Some`, so it is a stateful 1:1 map). The
result pairs the output batch with the widget after the call. -/
def process (b : Button) (input : List InputEvent) : List InputEvent × Button :=
  match input with
  | [] => ([], b)
  | e :: rest =>
    let s := step b e
    let r := process s.2 rest
    (s.1 :: r.1, r.2)

/-- A sequence of `process` calls, one per batch, threading the widget state
and concatenating the outputs. -/
def processAll (b : Button) (batches : List (List InputEvent)) :
    List InputEvent × Button :=
  match batches with
  | [] => ([], b)
  | l :: rest =>
    let r := process b l
    let r2 := processAll r.2 rest
    (r.1 ++ r2.1, r2.2)

/-- An event is a cursor press or release carrying the left button — the only
events that drive the widget's state machine. -/
def isLeftCursor (e : InputEvent) : Bool :=
  match e with
  | .Intermediate (.CursorPressed _ _ .Left) => true
  | .Intermediate (.CursorReleased _ _ .Left) => true
  | _ => false

lemma step_snd_geom (b : Button) (e : InputEvent) :
    (step b e).2.id = b.id ∧ (step b e).2.x = b.x ∧ (step b e).2.y = b.y ∧
      (step b e).2.width = b.width ∧ (step b e).2.height = b.height := by
  rcases e with ie | n
  · rcases ie with ⟨x, y, btn⟩ | ⟨x, y, btn⟩ | i | i | i
    · cases btn <;> simp only [step] <;> (try split_ifs) <;> simp
    · cases btn <;> simp only [step] <;> (try split_ifs) <;> simp
    all_goals simp [step]
  · simp [step]

lemma set_pressed_true_self {b : Button} (h : b.pressed = true) :
    { b with pressed := true } = b := by
  cases b; simp_all

lemma step_pressed_left_press (b : Button) (x y : Int) :
    (step b (.Intermediate (.CursorPressed x y .Left))).2.pressed =
      (b.inside x y || b.pressed) := by
  simp only [step]
  split_ifs with h1 h2 <;> simp_all

lemma step_pressed_left_release (b : Button) (x y : Int) :
    (step b (.Intermediate (.CursorReleased x y .Left))).2.pressed = false := by
  simp only [step]
  split_ifs with h1 <;> simp_all

lemma step_not_leftCursor (b : Button) (e : InputEvent)
    (h : isLeftCursor e = false) : step b e = (e, b) := by
  rcases e with ie | n
  · rcases ie with ⟨x, y, btn⟩ | ⟨x, y, btn⟩ | i | i | i
    · cases btn <;> simp_all [isLeftCursor, step]
    · cases btn <;> simp_all [isLeftCursor, step]
    all_goals simp [step]
  · simp [step]

lemma process_cons (b : Button) (e : InputEvent) (rest : List InputEvent) :
    process b (e :: rest) =
      ((step b e).1 :: (process (step b e).2 rest).1,
        (process (step b e).2 rest).2) := rfl

lemma process_length (b : Button) (l : List InputEvent) :
    ((process b l).1).length = l.length := by
  induction l generalizing b with
  | nil => rfl
  | cons e rest ih => simp [process_cons, ih]

lemma process_append (b : Button) (l1 l2 : List InputEvent) :
    process b (l1 ++ l2) =
      ((process b l1).1 ++ (process (process b l1).2 l2).1,
        (process (process b l1).2 l2).2) := by
  induction l1 generalizing b with
  | nil => simp [process]
  | cons e rest ih => simp [process_cons, ih]

lemma process_getElem? (b : Button) (l : List InputEvent) (i : Nat) :
    ((process b l).1)[i]? =
      (l[i]?).map (fun e => (step (process b (l.take i)).2 e).1) := by
  induction l generalizing b i with
  | nil => simp [process]
  | cons e rest ih =>
    cases i with
    | zero => simp [process_cons, process]
    | succ i => simpa [process_cons] using ih (step b e).2 i

lemma process_snd_geom (b : Button) (l : List InputEvent) :
    (process b l).2.id = b.id ∧ (process b l).2.x = b.x ∧
      (process b l).2.y = b.y ∧ (process b l).2.width = b.width ∧
      (process b l).2.height = b.height := by
  induction l generalizing b with
  | nil => simp [process]
  | cons e rest ih =>
    obtain ⟨h1, h2, h3, h4, h5⟩ := step_snd_geom b e
    obtain ⟨g1, g2, g3, g4, g5⟩ := ih (step b e).2
    exact ⟨g1.trans h1, g2.trans h2, g3.trans h3, g4.trans h4, g5.trans h5⟩

lemma inside_congr {b b' : Button} (hx : b'.x = b.x) (hy : b'.y = b.y)
    (hw : b'.width = b.width) (hh : b'.height = b.height) (px py : Int) :
    b'.inside px py = b.inside px py := by
  simp [Button.inside, hx, hy, hw, hh]

lemma process_inside (b : Button) (l : List InputEvent) (px py : Int) :
    ((process b l).2).inside px py = b.inside px py := by
  obtain ⟨_, h2, h3, h4, h5⟩ := process_snd_geom b l
  exact inside_congr h2 h3 h4 h5 px py

lemma process_snd_append_singleton (b : Button) (l : List InputEvent)
    (e : InputEvent) :
    (process b (l ++ [e])).2 = (step (process b l).2 e).2 := by
  rw [process_append]
  simp [process_cons, process]

lemma isLeftCursor_shape (e : InputEvent) (h : isLeftCursor e = true) :
    (∃ x y, e = .Intermediate (.CursorPressed x y .Left)) ∨
    (∃ x y, e = .Intermediate (.CursorReleased x y .Left)) := by
  rcases e with (⟨x, y, btn⟩ | ⟨x, y, btn⟩ | i | i | i) | n
  · cases btn with
    | Left => exact Or.inl ⟨x, y, rfl⟩
    | Right => simp [isLeftCursor] at h
    | Middle => simp [isLeftCursor] at h
    | Other c => simp [isLeftCursor] at h
  · cases btn with
    | Left => exact Or.inr ⟨x, y, rfl⟩
    | Right => simp [isLeftCursor] at h
    | Middle => simp [isLeftCursor] at h
    | Other c => simp [isLeftCursor] at h
  all_goals simp [isLeftCursor] at h

/-- The spec's invariant on the capture flag: some position `i` of the batch
holds a left-button press that is the most recent left-cursor activity (no
left press or left release follows it) and that press was accepted — the
point was inside the region, or the widget was already captured when it was
processed. -/
def capturedSpec (b : Button) (l : List InputEvent) : Prop :=
  ∃ i px py,
    l[i]? = some (.Intermediate (.CursorPressed px py .Left)) ∧
    (b.inside px py = true ∨ (process b (l.take i)).2.pressed = true) ∧
    ∀ j e, i < j → l[j]? = some e → isLeftCursor e = false

lemma capturedSpec_append_notLeft (b : Button) (l : List InputEvent)
    (e : InputEvent) (h : isLeftCursor e = false) :
    capturedSpec b (l ++ [e]) ↔ capturedSpec b l := by
  constructor
  · rintro ⟨i, px, py, hget, hcond, htrail⟩
    have hi : i < (l ++ [e]).length :=
      (List.getElem?_eq_some_iff.mp hget).1
    have hil : i < l.length := by
      rcases Nat.lt_or_ge i l.length with h' | h'
      · exact h'
      · exfalso
        have hieq : i = l.length := by
          simp only [List.length_append, List.length_singleton] at hi
          omega
        subst hieq
        rw [List.getElem?_concat_length] at hget
        injection hget with hg
        subst hg
        simp [isLeftCursor] at h
    refine ⟨i, px, py, ?_, ?_, ?_⟩
    · rwa [List.getElem?_append_left hil] at hget
    · rwa [List.take_append_of_le_length hil.le] at hcond
    · intro j e' hj hje
      have hjl : j < l.length := (List.getElem?_eq_some_iff.mp hje).1
      exact htrail j e' hj (by rwa [List.getElem?_append_left hjl])
  · rintro ⟨i, px, py, hget, hcond, htrail⟩
    have hil : i < l.length := (List.getElem?_eq_some_iff.mp hget).1
    refine ⟨i, px, py, by rwa [List.getElem?_append_left hil],
      by rwa [List.take_append_of_le_length hil.le], ?_⟩
    intro j e' hj hje
    rcases Nat.lt_or_ge j l.length with h' | h'
    · rw [List.getElem?_append_left h'] at hje
      exact htrail j e' hj hje
    · have hlen : j < l.length + 1 := by
        have := (List.getElem?_eq_some_iff.mp hje).1
        simpa [List.length_append] using this
      have hjeq : j = l.length := by omega
      subst hjeq
      rw [List.getElem?_concat_length] at hje
      injection hje with hg
      subst hg
      exact h

lemma pressed_iff_capturedSpec (b : Button) (l : List InputEvent)
    (hfresh : b.pressed = false) :
    ((process b l).2.pressed = true ↔ capturedSpec b l) := by
  induction l using List.reverseRecOn with
  | nil =>
    refine iff_of_false (by simp [process, hfresh]) ?_
    rintro ⟨i, px, py, hget, -, -⟩
    simp at hget
  | append_singleton l e ih =>
    rw [process_snd_append_singleton]
    by_cases hL : isLeftCursor e = true
    · rcases isLeftCursor_shape e hL with ⟨px', py', rfl⟩ | ⟨px', py', rfl⟩
      · rw [step_pressed_left_press, process_inside]
        constructor
        · intro h
          rw [Bool.or_eq_true] at h
          refine ⟨l.length, px', py', List.getElem?_concat_length l _, ?_, ?_⟩
          · rwa [List.take_left]
          · intro j e' hj hje
            exfalso
            have : j < l.length + 1 := by
              have := (List.getElem?_eq_some_iff.mp hje).1
              simpa [List.length_append] using this
            omega
        · rintro ⟨i, px, py, hget, hcond, htrail⟩
          rcases Nat.lt_trichotomy i l.length with h' | h' | h'
          · have := htrail l.length _ h' (List.getElem?_concat_length l _)
            simp [isLeftCursor] at this
          · subst h'
            rw [List.getElem?_concat_length] at hget
            injection hget with hg
            injection hg with hg'
            obtain ⟨h1, h2, -⟩ := IntermediateEvent.CursorPressed.inj hg'
            subst h1
            subst h2
            rw [List.take_left] at hcond
            rw [Bool.or_eq_true]
            exact hcond
          · exfalso
            have := (List.getElem?_eq_some_iff.mp hget).1
            simp only [List.length_append, List.length_singleton] at this
            omega
      · rw [step_pressed_left_release]
        refine iff_of_false (by simp) ?_
        rintro ⟨i, px, py, hget, hcond, htrail⟩
        rcases Nat.lt_trichotomy i l.length with h' | h' | h'
        · have := htrail l.length _ h' (List.getElem?_concat_length l _)
          simp [isLeftCursor] at this
        · subst h'
          rw [List.getElem?_concat_length] at hget
          simp at hget
        · have := (List.getElem?_eq_some_iff.mp hget).1
          simp only [List.length_append, List.length_singleton] at this
          omega
    · have hL' : isLeftCursor e = false := by simpa using hL
      rw [step_not_leftCursor _ _ hL']
      rw [capturedSpec_append_notLeft b l e hL']
      exact ih

lemma processAll_eq (b : Button) (bs : List (List InputEvent)) :
    processAll b bs = process b bs.flatten := by
  induction bs generalizing b with
  | nil => rfl
  | cons l rest ih => simp [processAll, process_append, ih]

/-- The processor emitted `e` at position `i`: the output batch holds `e`
there while the input did not — position `i` was transformed, not passed
through. -/
def emitsAt (b : Button) (l : List InputEvent) (i : Nat) (e : InputEvent) :
    Prop :=
  ((process b l).1)[i]? = some e ∧ l[i]? ≠ some e

/-- Position `i` carries an emitted release-kind event for widget id `n`. -/
def emitsStopAt (b : Button) (l : List InputEvent) (i n : Nat) : Prop :=
  emitsAt b l i (.Intermediate (.ButtonReleased n)) ∨
  emitsAt b l i (.Intermediate (.ButtonCanceled n))

/-- Position `i` carries an emitted `ButtonPressed n` event. -/
def emitsPressAt (b : Button) (l : List InputEvent) (i n : Nat) : Prop :=
  emitsAt b l i (.Intermediate (.ButtonPressed n))

lemma emitsAt_cons_succ (b : Button) (e : InputEvent) (rest : List InputEvent)
    (i : Nat) (ev : InputEvent) :
    emitsAt b (e :: rest) (i + 1) ev ↔ emitsAt (step b e).2 rest i ev := by
  simp [emitsAt, process_cons]

lemma emitsAt_cons_zero (b : Button) (e : InputEvent) (rest : List InputEvent)
    (ev : InputEvent) :
    emitsAt b (e :: rest) 0 ev ↔ ((step b e).1 = ev ∧ ¬ e = ev) := by
  simp [emitsAt, process_cons]

lemma emitsStopAt_cons_succ (b : Button) (e : InputEvent)
    (rest : List InputEvent) (i n : Nat) :
    emitsStopAt b (e :: rest) (i + 1) n ↔ emitsStopAt (step b e).2 rest i n := by
  simp [emitsStopAt, emitsAt_cons_succ]

lemma step_snd_pressed_cases (b : Button) (e : InputEvent)
    (h : (step b e).2.pressed = true) :
    ((step b e).1 = .Intermediate (.ButtonPressed b.id) ∧
      e ≠ .Intermediate (.ButtonPressed b.id)) ∨
    ((step b e).1 = e ∧ (step b e).2 = b) := by
  rcases e with (⟨x, y, btn⟩ | ⟨x, y, btn⟩ | i | i | i) | n
  · cases btn with
    | Left =>
      simp only [step] at h ⊢
      split_ifs at h ⊢ with h1 h2
      · exact Or.inl ⟨rfl, by simp⟩
      · exact Or.inl ⟨rfl, by simp⟩
      · exact Or.inr ⟨rfl, rfl⟩
    | Right => exact Or.inr ⟨rfl, rfl⟩
    | Middle => exact Or.inr ⟨rfl, rfl⟩
    | Other c => exact Or.inr ⟨rfl, rfl⟩
  · cases btn with
    | Left =>
      simp only [step] at h ⊢
      split_ifs at h ⊢ with h1 h2 <;>
        first
        | exact Or.inr ⟨rfl, rfl⟩
        | simp at h
    | Right => exact Or.inr ⟨rfl, rfl⟩
    | Middle => exact Or.inr ⟨rfl, rfl⟩
    | Other c => exact Or.inr ⟨rfl, rfl⟩
  all_goals exact Or.inr ⟨rfl, rfl⟩

lemma step_fst_stop_pressed (s : Button) (e : InputEvent) (n : Nat)
    (hne : (step s e).1 ≠ e)
    (h : (step s e).1 = .Intermediate (.ButtonReleased n) ∨
         (step s e).1 = .Intermediate (.ButtonCanceled n)) :
    s.pressed = true := by
  rcases e with (⟨x, y, btn⟩ | ⟨x, y, btn⟩ | i | i | i) | m
  · cases btn with
    | Left =>
      simp only [step] at h hne
      split_ifs at h hne with h1 h2 <;>
        first
        | (rcases h with h | h <;> simp at h)
        | simp at hne
    | Right => simp [step] at hne
    | Middle => simp [step] at hne
    | Other c => simp [step] at hne
  · cases btn with
    | Left =>
      simp only [step] at h hne
      split_ifs at h hne with h1 h2 <;>
        first
        | exact h1
        | simp at hne
    | Right => simp [step] at hne
    | Middle => simp [step] at hne
    | Other c => simp [step] at hne
  all_goals simp [step] at hne

lemma pressed_history (n : Nat) (b : Button) (l : List InputEvent)
    (hid : b.id = n) (h : (process b l).2.pressed = true) :
    (∃ j, emitsPressAt b l j n ∧ ∀ k, j < k → ¬ emitsStopAt b l k n) ∨
    (b.pressed = true ∧ ∀ k, ¬ emitsStopAt b l k n) := by
  induction l generalizing b with
  | nil =>
    right
    refine ⟨h, fun k => ?_⟩
    simp [emitsStopAt, emitsAt, process]
  | cons e rest ih =>
    have hid' : (step b e).2.id = n := (step_snd_geom b e).1.trans hid
    have h' : (process (step b e).2 rest).2.pressed = true := h
    rcases ih (step b e).2 hid' h' with ⟨j, hpj, hns⟩ | ⟨hbp, hns⟩
    · left
      refine ⟨j + 1, (emitsAt_cons_succ b e rest j _).mpr hpj, ?_⟩
      intro k hk
      obtain ⟨k', rfl⟩ : ∃ k', k = k' + 1 := ⟨k - 1, by omega⟩
      rw [emitsStopAt_cons_succ]
      exact hns k' (by omega)
    · rcases step_snd_pressed_cases b e hbp with ⟨hfst, hne⟩ | ⟨hfst, hsnd⟩
      · left
        refine ⟨0, (emitsAt_cons_zero b e rest _).mpr
          ⟨by rw [hfst, hid], by rw [← hid] at *; exact fun hc => hne hc⟩, ?_⟩
        intro k hk
        obtain ⟨k', rfl⟩ : ∃ k', k = k' + 1 := ⟨k - 1, by omega⟩
        rw [emitsStopAt_cons_succ]
        exact hns k'
      · right
        constructor
        · rw [hsnd] at hbp
          exact hbp
        · intro k
          cases k with
          | zero =>
            simp only [emitsStopAt, emitsAt_cons_zero, hfst]
            rintro (⟨h1, h2⟩ | ⟨h1, h2⟩) <;> exact h2 h1
          | succ k' =>
            rw [emitsStopAt_cons_succ]
            exact hns k'

lemma emitsAt_take (b : Button) (l : List InputEvent) (i j : Nat)
    (ev : InputEvent) (hj : j < i) :
    emitsAt b (l.take i) j ev ↔ emitsAt b l j ev := by
  unfold emitsAt
  rw [process_getElem?, process_getElem?, List.getElem?_take_of_lt hj,
    List.take_take, Nat.min_eq_left hj.le]

lemma emitsStopAt_take (b : Button) (l : List InputEvent) (i k n : Nat)
    (hk : k < i) :
    emitsStopAt b (l.take i) k n ↔ emitsStopAt b l k n := by
  unfold emitsStopAt
  rw [emitsAt_take b l i k _ hk, emitsAt_take b l i k _ hk]

lemma stop_emission_structure (n : Nat) (b : Button) (l : List InputEvent)
    (i : Nat) (hid : b.id = n) (hfresh : b.pressed = false)
    (h : emitsStopAt b l i n) :
    ∃ j, j < i ∧ emitsPressAt b l j n ∧
      ∀ k, j < k → k < i → ¬ emitsStopAt b l k n := by
  have key : ∀ ev : InputEvent, emitsAt b l i ev →
      ∃ e, l[i]? = some e ∧
        (step (process b (l.take i)).2 e).1 = ev ∧ e ≠ ev := by
    rintro ev ⟨hout, hin⟩
    rw [process_getElem?] at hout
    cases hle : l[i]? with
    | none => rw [hle] at hout; simp at hout
    | some e =>
      rw [hle] at hout
      simp only [Option.map_some', Option.some.injEq] at hout
      exact ⟨e, rfl, hout, fun hc => hin (by rw [hle, hc])⟩
  have hsp : (process b (l.take i)).2.pressed = true := by
    rcases h with hrel | hcan
    · obtain ⟨e, he, hst, hne⟩ := key _ hrel
      exact step_fst_stop_pressed _ e n (by rw [hst]; exact Ne.symm hne)
        (Or.inl hst)
    · obtain ⟨e, he, hst, hne⟩ := key _ hcan
      exact step_fst_stop_pressed _ e n (by rw [hst]; exact Ne.symm hne)
        (Or.inr hst)
  rcases pressed_history n b (l.take i) hid hsp with ⟨j, hpj, hns⟩ | ⟨hbp, -⟩
  · have hji : j < i := by
      have hjlen : j < ((process b (l.take i)).1).length :=
        (List.getElem?_eq_some_iff.mp hpj.1).1
      rw [process_length, List.length_take] at hjlen
      omega
    refine ⟨j, hji, (emitsAt_take b l i j _ hji).mp hpj, ?_⟩
    intro k hk hki hc
    exact hns k hk ((emitsStopAt_take b l i k n hki).mpr hc)
  · rw [hfresh] at hbp
    cases hbp

/-- Emission at flattened position `i` across a sequence of batches. -/
def emitsAllAt (b : Button) (bs : List (List InputEvent)) (i : Nat)
    (e : InputEvent) : Prop :=
  ((processAll b bs).1)[i]? = some e ∧ (bs.flatten)[i]? ≠ some e

lemma emitsAllAt_iff (b : Button) (bs : List (List InputEvent)) (i : Nat)
    (e : InputEvent) :
    emitsAllAt b bs i e ↔ emitsAt b bs.flatten i e := by
  unfold emitsAllAt emitsAt
  rw [processAll_eq]

/-- The spec's mathematical hit-test predicate, stated over unbounded
integers exactly as the spec words it: a point is inside iff
`0 ≤ px − x ≤ width` and `0 ≤ py − y ≤ height` (refinement reference, to be
compared with `Button.inside`). -/
def insideMath (x y width height px py : Int) : Prop :=
  0 ≤ px - x ∧ px - x ≤ width ∧ 0 ≤ py - y ∧ py - y ≤ height

instance (x y w h px py : Int) : Decidable (insideMath x y w h px py) := by
  unfold insideMath; infer_instance

@[simp] lemma new_id (idv : Nat) (x y w h : Int) :
    (Button.new idv x y w h).id = idv := rfl

@[simp] lemma new_x (idv : Nat) (x y w h : Int) :
    (Button.new idv x y w h).x = x := rfl

@[simp] lemma new_y (idv : Nat) (x y w h : Int) :
    (Button.new idv x y w h).y = y := rfl

@[simp] lemma new_width (idv : Nat) (x y w h : Int) :
    (Button.new idv x y w h).width = w := rfl

@[simp] lemma new_height (idv : Nat) (x y w h : Int) :
    (Button.new idv x y w h).height = h := rfl

@[simp] lemma new_pressed (idv : Nat) (x y w h : Int) :
    (Button.new idv x y w h).pressed = false := rfl

lemma inside_iff (b : Button) (px py : Int) :
    b.inside px py = true ↔
      0 ≤ wrap32 (px - b.x) ∧ wrap32 (px - b.x) ≤ b.width ∧
      0 ≤ wrap32 (py - b.y) ∧ wrap32 (py - b.y) ≤ b.height := by
  simp [Button.inside, and_assoc]

/-- C1: a left-button `CursorPressed` processed while Idle with the point
inside the region emits `ButtonPressed id` and moves to Captured; processed
while Captured it emits `ButtonPressed id` and stays Captured at any
coordinate; processed while Idle with the point outside it passes through
unchanged and the state stays Idle. -/
theorem C1_cursor_pressed (b : Button) (x y : Int) :
    (b.pressed = false → b.inside x y = true →
      step b (.Intermediate (.CursorPressed x y .Left)) =
        (.Intermediate (.ButtonPressed b.id), { b with pressed := true })) ∧
    (b.pressed = true →
      step b (.Intermediate (.CursorPressed x y .Left)) =
        (.Intermediate (.ButtonPressed b.id), b)) ∧
    (b.pressed = false → b.inside x y = false →
      step b (.Intermediate (.CursorPressed x y .Left)) =
        (.Intermediate (.CursorPressed x y .Left), b)) := by
  refine ⟨fun _hp hin => ?_, fun hp => ?_, fun hp hin => ?_⟩
  · simp [step, hin]
  · simp only [step]
    split_ifs with h1
    · rw [set_pressed_true_self hp]
    · rfl
  · simp [step, hin, hp]

/-- Concrete instances of C1: press inside from Idle, press anywhere from
Captured, press outside from Idle. -/
theorem C1_cursor_pressed_witness :
    step (Button.new 3 40 40 20 20)
        (.Intermediate (.CursorPressed 50 50 .Left)) =
      (.Intermediate (.ButtonPressed 3),
        { Button.new 3 40 40 20 20 with pressed := true }) ∧
    step { Button.new 3 40 40 20 20 with pressed := true }
        (.Intermediate (.CursorPressed 0 0 .Left)) =
      (.Intermediate (.ButtonPressed 3),
        { Button.new 3 40 40 20 20 with pressed := true }) ∧
    step (Button.new 3 40 40 20 20)
        (.Intermediate (.CursorPressed 10 50 .Left)) =
      (.Intermediate (.CursorPressed 10 50 .Left), Button.new 3 40 40 20 20) :=
  ⟨(C1_cursor_pressed (Button.new 3 40 40 20 20) 50 50).1 rfl (by decide),
   (C1_cursor_pressed { Button.new 3 40 40 20 20 with
      pressed := true } 0 0).2.1 rfl,
   (C1_cursor_pressed (Button.new 3 40 40 20 20) 10 50).2.2 rfl (by decide)⟩

/-- C2: a left-button `CursorReleased` processed while Captured emits
`ButtonReleased id` when the point is inside and `ButtonCanceled id` when it
is outside, in both cases returning to Idle; processed while Idle it passes
through unchanged and the state stays Idle. -/
theorem C2_cursor_released (b : Button) (x y : Int) :
    (b.pressed = true → b.inside x y = true →
      step b (.Intermediate (.CursorReleased x y .Left)) =
        (.Intermediate (.ButtonReleased b.id), { b with pressed := false })) ∧
    (b.pressed = true → b.inside x y = false →
      step b (.Intermediate (.CursorReleased x y .Left)) =
        (.Intermediate (.ButtonCanceled b.id), { b with pressed := false })) ∧
    (b.pressed = false →
      step b (.Intermediate (.CursorReleased x y .Left)) =
        (.Intermediate (.CursorReleased x y .Left), b)) := by
  refine ⟨fun hp hin => ?_, fun hp hin => ?_, fun hp => ?_⟩
  · simp [step, hp, hin]
  · simp [step, hp, hin]
  · simp [step, hp]

/-- Concrete instances of C2: release inside from Captured, release outside
from Captured, release from Idle. -/
theorem C2_cursor_released_witness :
    step { Button.new 3 40 40 20 20 with pressed := true }
        (.Intermediate (.CursorReleased 50 50 .Left)) =
      (.Intermediate (.ButtonReleased 3), Button.new 3 40 40 20 20) ∧
    step { Button.new 3 40 40 20 20 with pressed := true }
        (.Intermediate (.CursorReleased 10 50 .Left)) =
      (.Intermediate (.ButtonCanceled 3), Button.new 3 40 40 20 20) ∧
    step (Button.new 3 40 40 20 20)
        (.Intermediate (.CursorReleased 50 50 .Left)) =
      (.Intermediate (.CursorReleased 50 50 .Left), Button.new 3 40 40 20 20) :=
  ⟨(C2_cursor_released { Button.new 3 40 40 20 20 with
      pressed := true } 50 50).1 rfl (by decide),
   (C2_cursor_released { Button.new 3 40 40 20 20 with
      pressed := true } 10 50).2.1 rfl (by decide),
   (C2_cursor_released (Button.new 3 40 40 20 20) 50 50).2.2 rfl⟩

/-- C3: `process` preserves the batch length for every state and batch, and
the output at position `i` is derived from exactly the input element at
position `i` (mapped through `step` at the state reached after the first `i`
events). -/
theorem C3_length_preservation (b : Button) (l : List InputEvent) :
    ((process b l).1).length = l.length ∧
    ∀ i, ((process b l).1)[i]? =
      (l[i]?).map (fun e => (step (process b (l.take i)).2 e).1) :=
  ⟨process_length b l, fun i => process_getElem? b l i⟩

/-- C4 fails as stated: the wrapping `i32` subtraction makes the hit test
report inside a point that the mathematical predicate rejects. With the
widget at `x = 1`, `width = 2^31 − 1` the point `px = −2^31` wraps to a
non-negative difference and is reported inside, while `px − x < 0`
mathematically. -/
theorem C4_counterexample :
    (Button.new 0 1 0 (2 ^ 31 - 1) 0).inside (-(2 ^ 31)) 0 = true ∧
    ¬ insideMath 1 0 (2 ^ 31 - 1) 0 (-(2 ^ 31)) 0 := by
  refine ⟨by decide, fun hc => ?_⟩
  unfold insideMath at hc
  omega

/-- C4 (amended): for `i32`-range geometry and point, the hit test agrees
with the mathematical predicate `0 ≤ px−x ≤ width ∧ 0 ≤ py−y ≤ height`
whenever the differences do not underflow (`px − x ≥ −2^31` and
`py − y ≥ −2^31`); when `width` and `height` are non-negative the corners
`(x, y)` and `(x+width, y+height)` (the latter as the wrapped `i32` point)
are inside; the points `(x−1, y)` and `(x, y+height+1)` (as wrapped `i32`
points) are outside; and when `width` or `height` is negative no point is
inside. -/
theorem C4_hit_test_amended (idv : Nat) (x y w h px py : Int)
    (hx : isI32 x) (hy : isI32 y) (hw : isI32 w) (hh : isI32 h)
    (hpx : isI32 px) (hpy : isI32 py) :
    (-2 ^ 31 ≤ px - x → -2 ^ 31 ≤ py - y →
      ((Button.new idv x y w h).inside px py = true ↔
        insideMath x y w h px py)) ∧
    (0 ≤ w → 0 ≤ h →
      (Button.new idv x y w h).inside x y = true ∧
      (Button.new idv x y w h).inside (wrap32 (x + w)) (wrap32 (y + h)) =
        true) ∧
    (Button.new idv x y w h).inside (wrap32 (x - 1)) y = false ∧
    (Button.new idv x y w h).inside x (wrap32 (y + h + 1)) = false ∧
    ((w < 0 ∨ h < 0) → (Button.new idv x y w h).inside px py = false) := by
  simp only [isI32] at hx hy hw hh hpx hpy
  obtain ⟨hx1, hx2⟩ := hx
  obtain ⟨hy1, hy2⟩ := hy
  obtain ⟨hw1, hw2⟩ := hw
  obtain ⟨hh1, hh2⟩ := hh
  obtain ⟨hpx1, hpx2⟩ := hpx
  obtain ⟨hpy1, hpy2⟩ := hpy
  refine ⟨fun hdx hdy => ?_, fun hw0 hh0 => ⟨?_, ?_⟩, ?_, ?_, fun hneg => ?_⟩
  · rw [inside_iff]
    simp only [new_x, new_y, new_width, new_height]
    unfold insideMath wrap32
    omega
  · rw [inside_iff]
    simp only [new_x, new_y, new_width, new_height]
    unfold wrap32
    omega
  · rw [inside_iff]
    simp only [new_x, new_y, new_width, new_height]
    unfold wrap32
    omega
  · rw [← Bool.not_eq_true, inside_iff]
    simp only [new_x, new_y, new_width, new_height]
    unfold wrap32
    omega
  · rw [← Bool.not_eq_true, inside_iff]
    simp only [new_x, new_y, new_width, new_height]
    unfold wrap32
    omega
  · rw [← Bool.not_eq_true, inside_iff]
    simp only [new_x, new_y, new_width, new_height]
    unfold wrap32
    omega

/-- Concrete instances of the amended C4 at a 20×20 widget, plus the
negative-width case. -/
theorem C4_hit_test_amended_witness :
    ((Button.new 3 40 40 20 20).inside 50 50 = true ↔
      insideMath 40 40 20 20 50 50) ∧
    (Button.new 3 40 40 20 20).inside 40 40 = true ∧
    (Button.new 3 40 40 20 20).inside (wrap32 (40 + 20)) (wrap32 (40 + 20)) =
      true ∧
    (Button.new 3 40 40 20 20).inside (wrap32 (40 - 1)) 40 = false ∧
    (Button.new 3 40 40 20 20).inside 40 (wrap32 (40 + 20 + 1)) = false ∧
    (Button.new 3 40 40 (-1) 20).inside 50 50 = false := by
  have H := C4_hit_test_amended 3 40 40 20 20 50 50 (by decide) (by decide)
    (by decide) (by decide) (by decide) (by decide)
  have H2 := C4_hit_test_amended 3 40 40 (-1) 20 50 50 (by decide) (by decide)
    (by decide) (by decide) (by decide) (by decide)
  exact ⟨H.1 (by decide) (by decide), (H.2.1 (by decide) (by decide)).1,
    (H.2.1 (by decide) (by decide)).2, H.2.2.1, H.2.2.2.1,
    H2.2.2.2.2 (Or.inl (by decide))⟩

/-- C5: an event that is not a left-button cursor press or release is
returned unchanged with the widget state untouched, and within any batch
such an event reappears unchanged at its own position. -/
theorem C5_pass_through (b : Button) (e : InputEvent) (l : List InputEvent)
    (i : Nat) :
    (isLeftCursor e = false → step b e = (e, b)) ∧
    (isLeftCursor e = false → l[i]? = some e →
      ((process b l).1)[i]? = some e) := by
  refine ⟨step_not_leftCursor b e, fun hL hget => ?_⟩
  rw [process_getElem?, hget]
  simp [step_not_leftCursor _ _ hL]

/-- Concrete instance of C5: a right-button press passes through. -/
theorem C5_pass_through_witness :
    step (Button.new 3 40 40 20 20)
        (.Intermediate (.CursorPressed 50 50 .Right)) =
      (.Intermediate (.CursorPressed 50 50 .Right), Button.new 3 40 40 20 20) ∧
    ((process (Button.new 3 40 40 20 20)
        [.Intermediate (.CursorPressed 50 50 .Right)]).1)[0]? =
      some (.Intermediate (.CursorPressed 50 50 .Right)) :=
  ⟨(C5_pass_through (Button.new 3 40 40 20 20)
      (.Intermediate (.CursorPressed 50 50 .Right)) [] 0).1 rfl,
   (C5_pass_through (Button.new 3 40 40 20 20)
      (.Intermediate (.CursorPressed 50 50 .Right))
      [.Intermediate (.CursorPressed 50 50 .Right)] 0).2 rfl rfl⟩

/-- C6: starting from a freshly constructed widget, after processing any
batch the capture flag is true iff some position holds the most recent
left-cursor activity, it is a left press, and that press was accepted —
inside the region or the widget already captured when it was processed. -/
theorem C6_captured_invariant (idv : Nat) (x y w h : Int)
    (l : List InputEvent) :
    ((process (Button.new idv x y w h) l).2.pressed = true ↔
      capturedSpec (Button.new idv x y w h) l) :=
  pressed_iff_capturedSpec (Button.new idv x y w h) l rfl

/-- C7: processing distributes over batch concatenation — the second batch
is processed from the state reached after the first, and the outputs
concatenate. -/
theorem C7_batch_concat (b : Button) (l1 l2 : List InputEvent) :
    process b (l1 ++ l2) =
      ((process b l1).1 ++ (process (process b l1).2 l2).1,
        (process (process b l1).2 l2).2) :=
  process_append b l1 l2

/-- C8: `process` never changes the widget's id or geometry; only the
capture flag may differ. -/
theorem C8_geometry_frame (b : Button) (l : List InputEvent) :
    (process b l).2.id = b.id ∧ (process b l).2.x = b.x ∧
      (process b l).2.y = b.y ∧ (process b l).2.width = b.width ∧
      (process b l).2.height = b.height :=
  process_snd_geom b l

/-- C9 fails as stated: with `x = −1` and `px = 2^31 − 1` the wrapping
subtraction does go negative and the point is reported outside, but no
`i32` width makes that point mathematically satisfy the inequalities
(`px − x = 2^31` exceeds every representable width), so this is not a
disagreement with the mathematical predicate. -/
theorem C9_counterexample :
    (Button.new 0 (-1) 0 (2 ^ 31 - 1) (2 ^ 31 - 1)).inside (2 ^ 31 - 1) 0 =
      false ∧
    wrap32 ((2 ^ 31 - 1) - (-1)) < 0 ∧
    ∀ w h py y : Int, w ≤ 2 ^ 31 - 1 →
      ¬ insideMath (-1) y w h (2 ^ 31 - 1) py := by
  refine ⟨by decide, by decide, fun w h py y hwb hc => ?_⟩
  unfold insideMath at hc
  omega

/-- C9 (amended): the hit test computes the differences with wrapping
32-bit subtraction, and for extreme coordinates it disagrees with the
mathematical predicate — but only by reporting inside a point that is
mathematically outside (underflowing subtraction, e.g. `x = 1`,
`px = −2^31`, `width = 2^31 − 1`). With `x = −1` and `px = 2^31 − 1` the
subtraction wraps to `−2^31`, yet a point satisfying the mathematical
inequalities is never reported outside: mathematical membership always
implies the code reports inside. -/
theorem C9_wrapping_amended :
    wrap32 ((2 ^ 31 - 1) - (-1)) = -(2 ^ 31) ∧
    ((Button.new 7 1 0 (2 ^ 31 - 1) 0).inside (-(2 ^ 31)) 0 = true ∧
      ¬ insideMath 1 0 (2 ^ 31 - 1) 0 (-(2 ^ 31)) 0) ∧
    ∀ (idv : Nat) (x y w h px py : Int), isI32 w → isI32 h →
      insideMath x y w h px py →
      (Button.new idv x y w h).inside px py = true := by
  refine ⟨by decide, ⟨by decide, fun hc => ?_⟩, ?_⟩
  · unfold insideMath at hc
    omega
  · intro idv x y w h px py hw hh hm
    simp only [isI32] at hw hh
    unfold insideMath at hm
    rw [inside_iff]
    simp only [new_x, new_y, new_width, new_height]
    unfold wrap32
    omega

/-- Concrete instance of the universal part of the amended C9. -/
theorem C9_wrapping_amended_witness :
    (Button.new 3 40 40 20 20).inside 50 50 = true :=
  C9_wrapping_amended.2.2 3 40 40 20 20 50 50 (by decide) (by decide)
    (by decide)

/-- C10: starting from a freshly constructed widget, across any sequence of
`process` calls, whenever a `ButtonReleased id` or `ButtonCanceled id` is
emitted (the output differs from the input at that flattened position), a
`ButtonPressed id` was emitted at an earlier position with no emitted
release-kind event in between. -/
theorem C10_release_needs_press (n : Nat) (b : Button)
    (bs : List (List InputEvent)) (i : Nat)
    (hid : b.id = n) (hfresh : b.pressed = false)
    (h : emitsAllAt b bs i (.Intermediate (.ButtonReleased n)) ∨
         emitsAllAt b bs i (.Intermediate (.ButtonCanceled n))) :
    ∃ j, j < i ∧ emitsAllAt b bs j (.Intermediate (.ButtonPressed n)) ∧
      ∀ k, j < k → k < i →
        ¬ (emitsAllAt b bs k (.Intermediate (.ButtonReleased n)) ∨
           emitsAllAt b bs k (.Intermediate (.ButtonCanceled n))) := by
  rw [emitsAllAt_iff, emitsAllAt_iff] at h
  obtain ⟨j, hj, hp, hns⟩ :=
    stop_emission_structure n b bs.flatten i hid hfresh h
  refine ⟨j, hj, (emitsAllAt_iff b bs j _).mpr hp, ?_⟩
  intro k hk hki hc
  rw [emitsAllAt_iff, emitsAllAt_iff] at hc
  exact hns k hk hki hc

/-- Concrete instance of C10: a press batch followed by an
outside-release batch emits `ButtonCanceled 3` at position 1, preceded by
the emitted `ButtonPressed 3` at position 0. -/
theorem C10_release_needs_press_witness :
    ∃ j, j < 1 ∧
      emitsAllAt (Button.new 3 40 40 20 20)
        [[.Intermediate (.CursorPressed 50 50 .Left)],
         [.Intermediate (.CursorReleased 10 50 .Left)]] j
        (.Intermediate (.ButtonPressed 3)) ∧
      ∀ k, j < k → k < 1 →
        ¬ (emitsAllAt (Button.new 3 40 40 20 20)
            [[.Intermediate (.CursorPressed 50 50 .Left)],
             [.Intermediate (.CursorReleased 10 50 .Left)]] k
            (.Intermediate (.ButtonReleased 3)) ∨
           emitsAllAt (Button.new 3 40 40 20 20)
            [[.Intermediate (.CursorPressed 50 50 .Left)],
             [.Intermediate (.CursorReleased 10 50 .Left)]] k
            (.Intermediate (.ButtonCanceled 3))) :=
  C10_release_needs_press 3 (Button.new 3 40 40 20 20)
    [[.Intermediate (.CursorPressed 50 50 .Left)],
     [.Intermediate (.CursorReleased 10 50 .Left)]] 1 rfl rfl
    (Or.inr ⟨by decide, by decide⟩)

end Anima
